import Mathlib

/-!
Verification of the SO101 multi-arm composite device layer and the
teleoperation session driver.

The Python sources are embedded shallowly:

* a Python `dict` is modelled as an insertion-ordered association list
  (`Dict α`), with `dictInsert` modelling `d[k] = v` and `dictUpdate`
  modelling `d.update(e)`;
* `MultiSO101Follower.send_action` / `get_observation` / `is_connected` /
  `is_calibrated` / `disconnect` and `MultiSO101Leader.is_connected` /
  `is_calibrated` are embedded with the member devices abstracted as
  parameters (behaviour functions or status booleans);
* `operate_robot_pair` from teleoperate.py is embedded as a function that
  produces the session's event trace, parameterised by how the loop ends
  (cancellation, or which loop-body call raises) and by whether the
  pose-restore send in the `finally` block raises.
-/

namespace SO101

/-- Python `dict` with values in `α`: an insertion-ordered association list.
Well-formed dicts have pairwise-distinct keys; theorems add that hypothesis
where they need it. -/
abbrev Dict (α : Type) := List (String × α)

/-- Python `key.startswith(pre)`. -/
def strStarts (s p : String) : Bool :=
  p.data.isPrefixOf s.data

/-- Python `key.removeprefix(pre)`: drops the leading occurrence of `p`
from `s` when present, otherwise returns `s` unchanged. -/
def stripPre (s p : String) : String :=
  if strStarts s p then String.mk (s.data.drop p.data.length) else s

/-- Python `d[k] = v`: replace in place when the key is present, else append. -/
def dictInsert (d : Dict α) (kv : String × α) : Dict α :=
  if d.any (fun p => p.1 = kv.1) then
    d.map (fun p => if p.1 = kv.1 then (p.1, kv.2) else p)
  else
    d ++ [kv]

/-- Python `d.update(e)`: insert every binding of `e` into `d`, in order. -/
def dictUpdate (d e : Dict α) : Dict α :=
  e.foldl dictInsert d

/-- Python `d.get(k, dflt)`. -/
def pyGet (d : Dict β) (k : String) (dflt : β) : β :=
  match d.find? (fun p => p.1 = k) with
  | some p => p.2
  | none => dflt

/-- A member arm's `send_action` behaviour: local action dict in, echo out. -/
abbrev Arm (α : Type) := Dict α → Dict α

/-- The sub-dict extracted for one arm inside `MultiSO101Follower.send_action`
(multi_so101_follower.py lines 141-145): the dict comprehension keeping the
keys that start with `armName + "_"` and stripping that prefix. -/
def subAction (armName : String) (action : Dict α) : Dict α :=
  (action.filter (fun kv => strStarts kv.1 (armName ++ "_"))).map
    (fun kv => (stripPre kv.1 (armName ++ "_"), kv.2))

/-- Re-attaching an arm's prefix to the keys of its echoed result
(multi_so101_follower.py line 150). -/
def withPre (armName : String) (d : Dict α) : Dict α :=
  d.map (fun kv => (armName ++ "_" ++ kv.1, kv.2))

/-- One iteration of the loop body of `MultiSO101Follower.send_action`
(lines 138-150), acting on the accumulated result dict: skip the arm when
its sub-dict is empty, otherwise call the arm and merge its re-prefixed
echo into the result dict. -/
def sendStep (action : Dict α) (result : Dict α) (a : String × Arm α) : Dict α :=
  if (subAction a.1 action).isEmpty then result
  else dictUpdate result (withPre a.1 (a.2 (subAction a.1 action)))

/-- Embedding of `MultiSO101Follower.send_action` (lines 134-152): iterate
`sendStep` over the arm map starting from the empty result dict. -/
def sendAction (arms : List (String × Arm α)) (action : Dict α) : Dict α :=
  arms.foldl (sendStep action) []

/-- One iteration of the same loop, recording the call issued to the member
arm (if any) instead of the merged result. -/
def callsStep (action : Dict α) (calls : List (String × Dict α))
    (a : String × Arm α) : List (String × Dict α) :=
  if (subAction a.1 action).isEmpty then calls
  else calls ++ [(a.1, subAction a.1 action)]

/-- The calls `MultiSO101Follower.send_action` issues to member arms, in
order: one `(arm name, delivered sub-dict)` entry per invoked arm. -/
def sendActionCalls (arms : List (String × Arm α)) (action : Dict α) :
    List (String × Dict α) :=
  arms.foldl (callsStep action) []

/-- Embedding of `MultiSO101Follower.is_connected` (lines 87-92): the
conjunction of every arm bus status and every camera status. -/
def followerIsConnected (armStatus camStatus : List Bool) : Bool :=
  armStatus.all (fun b => b) && camStatus.all (fun b => b)

/-- Embedding of `MultiSO101Follower.is_calibrated` (lines 101-103). -/
def followerIsCalibrated (armStatus : List Bool) : Bool :=
  armStatus.all (fun b => b)

/-- Embedding of `MultiSO101Leader.is_connected` (multi_so101_leader.py
lines 68-70). -/
def leaderIsConnected (armStatus : List Bool) : Bool :=
  armStatus.all (fun b => b)

/-- Embedding of `MultiSO101Leader.is_calibrated` (lines 76-78). -/
def leaderIsCalibrated (armStatus : List Bool) : Bool :=
  armStatus.all (fun b => b)

/-- Embedding of `MultiSO101Follower.get_observation` (lines 117-132), with
each member arm's returned observation dict and each camera's frame passed
in as data: first `obs_dict.update` with every arm's prefixed observation,
in arm-map order, then `obs_dict[cam_key] = frame` for every camera, in
camera-map order. -/
def getObservation (arms : List (String × Dict α)) (cams : List (String × α)) :
    Dict α :=
  let armPart := arms.foldl (fun d a => dictUpdate d (withPre a.1 a.2)) []
  cams.foldl (fun d c => dictInsert d c) armPart

/-- Embedding of a `for member in members: member.disconnect()` loop over
fallible members, such as the two loops of `MultiSO101Follower.disconnect`
(lines 154-159). Each member is a name paired with whether its `disconnect`
raises. Returns the names whose `disconnect` was called, in order, and
whether an exception propagated out of the loop: the loop body has no
handler, so a raising member aborts the remaining iterations. -/
def runDisc : List (String × Bool) → List String × Bool
  | [] => ([], false)
  | m :: rest =>
    if m.2 then ([m.1], true)
    else
      let r := runDisc rest
      (m.1 :: r.1, r.2)

/-- Embedding of `MultiSO101Follower.disconnect` (lines 154-159): disconnect
every arm in map order, then every camera; an exception from any member
propagates immediately and skips everything after it. Returns the members
whose `disconnect` was called and whether an exception propagated. -/
def followerDisconnect (arms cams : List (String × Bool)) : List String × Bool :=
  let ra := runDisc arms
  if ra.2 then (ra.1, true)
  else
    let rc := runDisc cams
    (ra.1 ++ rc.1, rc.2)

/-- The per-arm sub-configuration built by `MultiSO101Follower.__init__`
(lines 52-60); `maxRel` stands in for `max_relative_target` with the
numeric payload abstracted. -/
structure SubCfg where
  subId : Option String
  port : String
  disableTorque : Bool
  maxRel : Option Nat
  useDegrees : Bool
deriving DecidableEq

/-- The fields of `MultiSO101FollowerConfig` that `__init__` reads
(config_multi_so101_follower.py lines 38-46 and the inherited `id`). -/
structure FollowerCfg where
  cfgId : Option String
  armPorts : List (String × String)
  armDisableTorque : List (String × Bool)
  armMaxRel : List (String × Option Nat)
  armUseDegrees : List (String × Bool)
deriving DecidableEq

/-- The `SO101FollowerConfig` built for one arm inside the constructor loop
(multi_so101_follower.py lines 52-60). -/
def mkArmCfg (cfg : FollowerCfg) (armName port : String) : SubCfg where
  subId := match cfg.cfgId with
    | some i => some (i ++ "_" ++ armName)
    | none => none
  port := port
  disableTorque := pyGet cfg.armDisableTorque armName true
  maxRel := pyGet cfg.armMaxRel armName none
  useDegrees := pyGet cfg.armUseDegrees armName true

/-- Embedding of `MultiSO101Follower.__init__` (lines 44-63): one arm entry
per `arm_ports` entry, in order. The constructor body contains no
validation and no raise statement of its own, so the embedding always
returns `Except.ok`; the `Except` codomain records that no configuration
error is ever surfaced. -/
def followerInit (cfg : FollowerCfg) : Except String (List (String × SubCfg)) :=
  Except.ok (cfg.armPorts.map (fun ap => (ap.1, mkArmCfg cfg ap.1 ap.2)))

/-- Two arm identifiers collide when a feature key of the second also
parses under the first one's prefix, i.e. the first identifier's prefix is
a proper prefix of the second's (spec §3: `"left"` and `"left_2"` collide
against `left_2_pos`). -/
def namesCollide (a b : String) : Bool :=
  decide (a ≠ b) && strStarts (b ++ "_") (a ++ "_")

/-- A list of arm identifiers has a namespace collision when some pair of
its members collides. -/
def hasCollision (names : List String) : Bool :=
  names.any (fun a => names.any (fun b => namesCollide a b))

/-- Events observable at the boundary of one teleoperation session
(`operate_robot_pair`, src/teleoperate.py lines 22-53): the home-pose
capture, each poll of the shared stop event, each leader read, each
follower `send_action` call (argument recorded), the error report printed
by the `except` clause, the two disconnects, and the propagation of an
exception out of the function. -/
inductive Ev (α : Type) where
  | captureHome (obs : α)
  | poll (flag : Bool)
  | getAction (i : Nat)
  | sendFollower (a : α)
  | report
  | discFollower
  | discLeader
  | raised
deriving DecidableEq

/-- How the control loop of `operate_robot_pair` ends: the stop event is
observed set after `n` completed iterations, or `leader.get_action` raises
on iteration `n`, or `follower.send_action` raises on iteration `n`. -/
inductive LoopExit where
  | cancelled (n : Nat)
  | getActionRaises (n : Nat)
  | sendActionRaises (n : Nat)
deriving DecidableEq

/-- The events of one completed loop iteration `i` of `operate_robot_pair`
(lines 41-45): the stop event is polled (and found unset), the leader is
read, and the read action is sent to the follower. `acts i` is the action
the leader returns on iteration `i`. -/
def iterEvents (acts : Nat → α) (i : Nat) : List (Ev α) :=
  [Ev.poll false, Ev.getAction i, Ev.sendFollower (acts i)]

/-- The events of `n` completed loop iterations starting at iteration `k`. -/
def loopEvents (acts : Nat → α) (k : Nat) : Nat → List (Ev α)
  | 0 => []
  | n + 1 => iterEvents acts k ++ loopEvents acts (k + 1) n

/-- The in-loop events of `operate_robot_pair` (lines 41-47) for a given
loop exit: on cancellation the final poll observes the flag set; when a
loop-body call raises, the events up to and including the raising call are
followed by the `except` clause's report (line 47). -/
def loopExitEvents (acts : Nat → α) : LoopExit → List (Ev α)
  | LoopExit.cancelled n => loopEvents acts 0 n ++ [Ev.poll true]
  | LoopExit.getActionRaises n =>
      loopEvents acts 0 n ++ [Ev.poll false, Ev.getAction n, Ev.report]
  | LoopExit.sendActionRaises n =>
      loopEvents acts 0 n
        ++ [Ev.poll false, Ev.getAction n, Ev.sendFollower (acts n), Ev.report]

/-- The events of the `finally` block of `operate_robot_pair` (lines 48-53):
the pose-restore send, then the two disconnects. The block has no exception
handler, so when the pose-restore send raises the disconnects are skipped
and the exception propagates out of the function. -/
def teardownEvents (home : α) (restoreRaises : Bool) : List (Ev α) :=
  if restoreRaises then [Ev.sendFollower home, Ev.raised]
  else [Ev.sendFollower home, Ev.discFollower, Ev.discLeader]

/-- The full event trace of one `operate_robot_pair` call (lines 22-53):
the home snapshot is captured once at entry (line 37), then the loop runs
until `mode` ends it, then the `finally` block runs. -/
def sessionTrace (home : α) (acts : Nat → α) (mode : LoopExit)
    (restoreRaises : Bool) : List (Ev α) :=
  Ev.captureHome home :: (loopExitEvents acts mode ++ teardownEvents home restoreRaises)

/-- Checker for the strict read/write alternation of a session's in-loop
events, expecting the next leader read to be iteration `k`: every iteration
polls the stop flag exactly once, immediately before its leader read, and
sends the read action to the follower before the next read; the loop part
ends with the single poll that observes the flag set. -/
def strictAlt (acts : Nat → α) [DecidableEq α] : List (Ev α) → Nat → Bool
  | [Ev.poll true], _ => true
  | Ev.poll false :: Ev.getAction i :: Ev.sendFollower v :: rest, k =>
      decide (i = k) && decide (v = acts k) && strictAlt acts rest (k + 1)
  | _, _ => false

/-- Number of polls of the shared stop event in a list of session events. -/
def pollCount (evs : List (Ev α)) : Nat :=
  evs.countP (fun e =>
    match e with
    | Ev.poll _ => true
    | _ => false)

end SO101

namespace SO101

/- Helper lemmas about the dict model and send_action. -/

theorem foldl_callsStep_append (action : Dict α) (arms : List (String × Arm α))
    (cs : List (String × Dict α)) :
    arms.foldl (callsStep action) cs = cs ++ arms.foldl (callsStep action) [] := by
  induction arms generalizing cs with
  | nil => simp
  | cons a rest ih =>
    simp only [List.foldl_cons]
    by_cases h : (subAction a.1 action).isEmpty
    · rw [show callsStep action cs a = cs from by simp [callsStep, h],
        show callsStep action [] a = [] from by simp [callsStep, h]]
      exact ih cs
    · rw [show callsStep action cs a = cs ++ [(a.1, subAction a.1 action)] from by
          simp [callsStep, h],
        show callsStep action [] a = [(a.1, subAction a.1 action)] from by
          simp [callsStep, h]]
      rw [ih, ih [(a.1, subAction a.1 action)]]
      simp

theorem sendActionCalls_eq (arms : List (String × Arm α)) (action : Dict α) :
    sendActionCalls arms action
      = (arms.filter (fun a => !(subAction a.1 action).isEmpty)).map
          (fun a => (a.1, subAction a.1 action)) := by
  induction arms with
  | nil => rfl
  | cons a rest ih =>
    simp only [sendActionCalls, List.foldl_cons, List.filter_cons] at ih ⊢
    by_cases h : (subAction a.1 action).isEmpty
    · rw [show callsStep action [] a = [] from by simp [callsStep, h]]
      simp [h, ih]
    · rw [show callsStep action [] a = [(a.1, subAction a.1 action)] from by
          simp [callsStep, h]]
      rw [foldl_callsStep_append]
      simp [h, ih]

theorem foldl_sendStep_filter (action : Dict α) (arms : List (String × Arm α))
    (init : Dict α) :
    arms.foldl (sendStep action) init
      = (arms.filter (fun a => !(subAction a.1 action).isEmpty)).foldl
          (fun result a => dictUpdate result (withPre a.1 (a.2 (subAction a.1 action))))
          init := by
  induction arms generalizing init with
  | nil => rfl
  | cons a rest ih =>
    simp only [List.foldl_cons, List.filter_cons]
    by_cases h : (subAction a.1 action).isEmpty
    · rw [show sendStep action init a = init from by simp [sendStep, h]]
      simp [h, ih]
    · rw [show sendStep action init a
          = dictUpdate init (withPre a.1 (a.2 (subAction a.1 action))) from by
            simp [sendStep, h]]
      simp only [h, Bool.not_false, if_true, List.foldl_cons]
      exact ih _

theorem sendAction_eq_foldl_calls (arms : List (String × Arm α)) (action : Dict α) :
    sendAction arms action
      = (arms.filter (fun a => !(subAction a.1 action).isEmpty)).foldl
          (fun result a => dictUpdate result (withPre a.1 (a.2 (subAction a.1 action))))
          [] :=
  foldl_sendStep_filter action arms []

theorem subAction_erase_unmatched (armName k : String) (action : Dict α)
    (h : strStarts k (armName ++ "_") = false) :
    subAction armName (action.filter (fun kv => kv.1 ≠ k)) = subAction armName action := by
  have hp : ∀ kv : String × α,
      (strStarts kv.1 (armName ++ "_") && !(decide (kv.1 = k)))
        = strStarts kv.1 (armName ++ "_") := by
    intro kv
    by_cases hk : kv.1 = k
    · rw [hk, h]
      simp
    · simp [hk]
  unfold subAction
  rw [List.filter_filter]
  exact congrArg _ (List.filter_congr (fun a _ => by simpa using hp a))

theorem sendAction_congr (arms : List (String × Arm α)) (act1 act2 : Dict α)
    (h : ∀ a ∈ arms, subAction a.1 act1 = subAction a.1 act2) :
    sendAction arms act1 = sendAction arms act2
      ∧ sendActionCalls arms act1 = sendActionCalls arms act2 := by
  constructor
  · suffices hs : ∀ init : Dict α,
        arms.foldl (sendStep act1) init = arms.foldl (sendStep act2) init by
      exact hs []
    induction arms with
    | nil => intro init; rfl
    | cons a rest ih =>
      intro init
      simp only [List.foldl_cons]
      rw [show sendStep act1 init a = sendStep act2 init a from by
        unfold sendStep
        rw [h a (List.mem_cons_self a rest)]]
      exact ih (fun b hb => h b (List.mem_cons_of_mem a hb)) _
  · suffices hs : ∀ cs : List (String × Dict α),
        arms.foldl (callsStep act1) cs = arms.foldl (callsStep act2) cs by
      exact hs []
    induction arms with
    | nil => intro cs; rfl
    | cons a rest ih =>
      intro cs
      simp only [List.foldl_cons]
      rw [show callsStep act1 cs a = callsStep act2 cs a from by
        unfold callsStep
        rw [h a (List.mem_cons_self a rest)]]
      exact ih (fun b hb => h b (List.mem_cons_of_mem a hb)) _

theorem all_set_false (l : List Bool) (i : Nat) (h : i < l.length) :
    (l.set i false).all (fun b => b) = false := by
  induction l generalizing i with
  | nil => simp at h
  | cons b rest ih =>
    cases i with
    | zero => simp
    | succ j =>
      simp only [List.set_cons_succ, List.all_cons,
        ih j (Nat.lt_of_succ_lt_succ h)]
      simp

end SO101

namespace SO101

/-- C1: for every action mapping passed to the composite follower's
send_action, each arm whose prefixed sub-mapping is non-empty receives
exactly the restriction of the input to its prefixed keys with the prefix
removed; an arm whose sub-mapping is empty is not invoked; keys matching no
arm's prefix are silently dropped (removing such a key changes neither the
calls nor the result); and the returned mapping is the union, over invoked
arms, of each arm's echoed result with the prefix re-attached — including
the concrete left/right/unrelated scenario. -/
theorem sendAction_partitions_and_echoes (arms : List (String × Arm α))
    (action : Dict α) :
    sendActionCalls arms action
        = (arms.filter (fun a => !(subAction a.1 action).isEmpty)).map
            (fun a => (a.1, subAction a.1 action))
    ∧ (∀ a ∈ arms, (subAction a.1 action).isEmpty = true →
        ∀ c ∈ sendActionCalls arms action, c.1 ≠ a.1)
    ∧ (∀ k, (∀ a ∈ arms, strStarts k (a.1 ++ "_") = false) →
        sendAction arms (action.filter (fun kv => kv.1 ≠ k)) = sendAction arms action
          ∧ sendActionCalls arms (action.filter (fun kv => kv.1 ≠ k))
              = sendActionCalls arms action)
    ∧ sendAction arms action
        = (arms.filter (fun a => !(subAction a.1 action).isEmpty)).foldl
            (fun result a => dictUpdate result (withPre a.1 (a.2 (subAction a.1 action))))
            []
    ∧ sendActionCalls [("left", fun d => d), ("right", fun d => d)]
          [("left_pos", (1 : Nat)), ("right_pos", 2), ("unrelated_pos", 9)]
        = [("left", [("pos", 1)]), ("right", [("pos", 2)])]
    ∧ sendAction [("left", fun d => d), ("right", fun d => d)]
          [("left_pos", (1 : Nat)), ("right_pos", 2), ("unrelated_pos", 9)]
        = [("left_pos", 1), ("right_pos", 2)] := by
  refine ⟨sendActionCalls_eq arms action, ?_, ?_, sendAction_eq_foldl_calls arms action,
    by decide, by decide⟩
  · intro a ha hemp c hc
    rw [sendActionCalls_eq] at hc
    obtain ⟨b, hb, rfl⟩ := List.mem_map.mp hc
    have hbf := (List.mem_filter.mp hb).2
    intro hcon
    rw [hcon] at hbf
    simp [hemp] at hbf
  · intro k hk
    exact sendAction_congr arms _ action
      (fun a ha => subAction_erase_unmatched a.1 k action (hk a ha))

/-- Witness for C1 at a concrete input: removing the unmatched key
`unrelated_pos` leaves the send_action result unchanged. -/
theorem sendAction_partitions_and_echoes_witness :
    sendAction [("left", fun d => d), ("right", fun d => d)]
        ([("left_pos", (1 : Nat)), ("right_pos", 2), ("unrelated_pos", 9)].filter
          (fun kv => kv.1 ≠ "unrelated_pos"))
      = sendAction [("left", fun d => d), ("right", fun d => d)]
          [("left_pos", (1 : Nat)), ("right_pos", 2), ("unrelated_pos", 9)] :=
  ((sendAction_partitions_and_echoes
      [("left", fun d => d), ("right", fun d => d)]
      [("left_pos", (1 : Nat)), ("right_pos", 2), ("unrelated_pos", 9)]).2.2.1
    "unrelated_pos" (by decide)).1

/-- C3 counterexample: with arms `left` and `left_2`, the key `left_2_pos`
matches both prefixes and is dispatched to BOTH arms in the same
send_action call (`left` receives `2_pos`, `left_2` receives `pos`),
refuting the claim that a key is delivered to at most one arm with the
first matching prefix winning. -/
theorem colliding_key_dispatched_to_both_arms :
    ("left", [("2_pos", (5 : Nat))]) ∈
        sendActionCalls [("left", fun d => d), ("left_2", fun d => d)]
          [("left_2_pos", 5)]
    ∧ ("left_2", [("pos", (5 : Nat))]) ∈
        sendActionCalls [("left", fun d => d), ("left_2", fun d => d)]
          [("left_2_pos", 5)]
    ∧ (sendActionCalls [(("left", fun d => d) : String × Arm Nat), ("left_2", fun d => d)]
          [("left_2_pos", 5)]).length = 2 := by
  decide

/-- C3 amended: send_action dispatches a key to EVERY arm whose prefix
matches it, not only to the first in arm-map order — each arm whose
extracted sub-mapping is non-empty is invoked with that full sub-mapping. -/
theorem sendAction_dispatches_to_every_matching_arm
    (arms : List (String × Arm α)) (action : Dict α) (a : String × Arm α)
    (ha : a ∈ arms) (hne : (subAction a.1 action).isEmpty = false) :
    (a.1, subAction a.1 action) ∈ sendActionCalls arms action := by
  rw [sendActionCalls_eq]
  exact List.mem_map_of_mem _ (List.mem_filter.mpr ⟨ha, by simp [hne]⟩)

/-- Witness for the amended C3: the first arm `left` receives the colliding
key `left_2_pos` even though `left_2`'s prefix also matches it. -/
theorem sendAction_dispatches_to_every_matching_arm_witness :
    ("left", subAction "left" [("left_2_pos", (5 : Nat))]) ∈
      sendActionCalls [("left", fun d => d), ("left_2", fun d => d)]
        [("left_2_pos", (5 : Nat))] :=
  sendAction_dispatches_to_every_matching_arm
    [("left", fun d => d), ("left_2", fun d => d)] [("left_2_pos", (5 : Nat))]
    ("left", fun d => d) (List.mem_cons_self _ _) (by decide)

/-- C6: the composite follower's is_connected is the pure conjunction of
every member arm's and every camera's status, and flipping any single
member to disconnected makes it false; likewise for the composite
leader's is_connected over its arms. -/
theorem isConnected_conjunctive (armStatus camStatus : List Bool) :
    (followerIsConnected armStatus camStatus = true
        ↔ (∀ b ∈ armStatus, b = true) ∧ (∀ b ∈ camStatus, b = true))
    ∧ (∀ i, i < armStatus.length →
        followerIsConnected (armStatus.set i false) camStatus = false)
    ∧ (∀ i, i < camStatus.length →
        followerIsConnected armStatus (camStatus.set i false) = false)
    ∧ (leaderIsConnected armStatus = true ↔ ∀ b ∈ armStatus, b = true)
    ∧ (∀ i, i < armStatus.length →
        leaderIsConnected (armStatus.set i false) = false) := by
  refine ⟨?_, ?_, ?_, ?_, ?_⟩
  · simp [followerIsConnected, List.all_eq_true]
  · intro i hi
    simp [followerIsConnected, all_set_false armStatus i hi]
  · intro i hi
    simp [followerIsConnected, all_set_false camStatus i hi]
  · simp [leaderIsConnected, List.all_eq_true]
  · intro i hi
    simp [leaderIsConnected, all_set_false armStatus i hi]

/-- Witness for C6 at a concrete composite: flipping the first of two
connected arms makes the composite report disconnected. -/
theorem isConnected_conjunctive_witness :
    followerIsConnected ([true, true].set 0 false) [true] = false :=
  (isConnected_conjunctive [true, true] [true]).2.1 0 (by decide)

/-- C10: a composite with an empty arm map and no cameras vacuously reports
itself connected and calibrated, on both the follower and the leader side. -/
theorem empty_composite_connected_and_calibrated :
    followerIsConnected [] [] = true ∧ followerIsCalibrated [] = true
      ∧ leaderIsConnected [] = true ∧ leaderIsCalibrated [] = true := by
  decide

end SO101

namespace SO101

theorem runDisc_all_ok (l : List (String × Bool)) (h : ∀ m ∈ l, m.2 = false) :
    runDisc l = (l.map Prod.fst, false) := by
  induction l with
  | nil => rfl
  | cons m rest ih =>
    have hm := h m (List.mem_cons_self m rest)
    simp only [runDisc, hm, Bool.false_eq_true, if_false]
    rw [ih (fun x hx => h x (List.mem_cons_of_mem m hx))]
    simp

theorem runDisc_fail (pre post : List (String × Bool)) (n : String)
    (h : ∀ m ∈ pre, m.2 = false) :
    runDisc (pre ++ (n, true) :: post) = (pre.map Prod.fst ++ [n], true) := by
  induction pre with
  | nil => simp [runDisc]
  | cons m rest ih =>
    have hm := h m (List.mem_cons_self m rest)
    simp only [List.cons_append, runDisc, hm, Bool.false_eq_true, if_false,
      List.append_eq]
    rw [ih (fun x hx => h x (List.mem_cons_of_mem m hx))]
    simp

/-- C5 counterexample: with a first arm whose disconnect raises, the second
arm's and the camera's disconnect are never called — the composite's
disconnect is fail-fast, refuting the claimed best-effort continuation. -/
theorem disconnect_aborts_on_member_failure :
    followerDisconnect [("a1", true), ("a2", false)] [("c1", false)] = (["a1"], true)
    ∧ "a2" ∉ (followerDisconnect [("a1", true), ("a2", false)] [("c1", false)]).1
    ∧ "c1" ∉ (followerDisconnect [("a1", true), ("a2", false)] [("c1", false)]).1 := by
  decide

/-- C5 amended: the composite follower's disconnect calls members in map
order only up to and including the first member whose disconnect raises;
the exception propagates, skipping the remaining arms and all cameras.
When no member raises, every arm and then every camera is disconnected in
map order. -/
theorem disconnect_fail_fast_behavior :
    (∀ (pre post cams : List (String × Bool)) (n : String),
        (∀ m ∈ pre, m.2 = false) →
        followerDisconnect (pre ++ (n, true) :: post) cams
          = (pre.map Prod.fst ++ [n], true))
    ∧ (∀ (arms cams : List (String × Bool)),
        (∀ m ∈ arms, m.2 = false) → (∀ c ∈ cams, c.2 = false) →
        followerDisconnect arms cams
          = (arms.map Prod.fst ++ cams.map Prod.fst, false)) := by
  constructor
  · intro pre post cams n h
    unfold followerDisconnect
    rw [runDisc_fail pre post n h]
    simp
  · intro arms cams h hc
    unfold followerDisconnect
    rw [runDisc_all_ok arms h, runDisc_all_ok cams hc]
    simp

/-- Witness for the amended C5: one raising arm, called members are exactly
the raising arm. -/
theorem disconnect_fail_fast_behavior_witness :
    followerDisconnect [("a1", true), ("a2", false)] [("c1", false)]
      = (["a1"], true) := by
  simpa using
    disconnect_fail_fast_behavior.1 [] [("a2", false)] [("c1", false)] "a1"
      (by simp)

/-- C8 counterexample: a configuration whose arm identifiers `left` and
`left_2` collide (the feature key `left_2_pos` parses under both prefixes)
is accepted by the constructor, which builds both arms and surfaces no
error — refuting the claim that colliding prefixes are fatal at
construction time. -/
theorem colliding_config_constructs :
    hasCollision ["left", "left_2"] = true
    ∧ followerInit
        { cfgId := none, armPorts := [("left", "p1"), ("left_2", "p2")],
          armDisableTorque := [], armMaxRel := [], armUseDegrees := [] }
      = Except.ok
          [("left", { subId := none, port := "p1", disableTorque := true,
                      maxRel := none, useDegrees := true }),
           ("left_2", { subId := none, port := "p2", disableTorque := true,
                        maxRel := none, useDegrees := true })] :=
  ⟨by decide, rfl⟩

/-- C8 amended: the constructor performs no namespace validation — it
succeeds for every configuration, colliding prefixes included, building one
arm per arm_ports entry; the ambiguity instead surfaces at dispatch time,
where a key matching several arm prefixes is delivered to multiple arms. -/
theorem followerInit_performs_no_validation (cfg : FollowerCfg) :
    (followerInit cfg).toOption.isSome = true
    ∧ (followerInit cfg).toOption.map (fun arms => arms.map Prod.fst)
        = some (cfg.armPorts.map Prod.fst)
    ∧ (sendActionCalls [(("left", fun d => d) : String × Arm Nat), ("left_2", fun d => d)]
          [("left_2_pos", 1)]).length = 2 := by
  refine ⟨rfl, ?_, by decide⟩
  simp [followerInit, Except.toOption, List.map_map]

end SO101

namespace SO101

theorem raised_not_mem_loopEvents (acts : Nat → α) :
    ∀ n k, Ev.raised ∉ loopEvents acts k n := by
  intro n
  induction n with
  | zero => intro k; simp [loopEvents]
  | succ n ih =>
    intro k
    simp [loopEvents, iterEvents, ih (k + 1)]

theorem discF_not_mem_loopEvents (acts : Nat → α) :
    ∀ n k, Ev.discFollower ∉ loopEvents acts k n := by
  intro n
  induction n with
  | zero => intro k; simp [loopEvents]
  | succ n ih =>
    intro k
    simp [loopEvents, iterEvents, ih (k + 1)]

theorem discL_not_mem_loopEvents (acts : Nat → α) :
    ∀ n k, Ev.discLeader ∉ loopEvents acts k n := by
  intro n
  induction n with
  | zero => intro k; simp [loopEvents]
  | succ n ih =>
    intro k
    simp [loopEvents, iterEvents, ih (k + 1)]

theorem sendHome_not_mem_loopEvents (home : α) (acts : Nat → α)
    (h : ∀ i, acts i ≠ home) :
    ∀ n k, Ev.sendFollower home ∉ loopEvents acts k n := by
  intro n
  induction n with
  | zero => intro k; simp [loopEvents]
  | succ n ih =>
    intro k
    simp [loopEvents, iterEvents, ih (k + 1)]
    exact fun hh => h k hh.symm

theorem strictAlt_loopEvents [DecidableEq α] (acts : Nat → α) :
    ∀ n k, strictAlt acts (loopEvents acts k n ++ [Ev.poll true]) k = true := by
  intro n
  induction n with
  | zero => intro k; simp [loopEvents, strictAlt]
  | succ n ih =>
    intro k
    simp [loopEvents, iterEvents, strictAlt, ih (k + 1)]

theorem pollCount_loopEvents (acts : Nat → α) :
    ∀ n k, pollCount (loopEvents acts k n) = n := by
  intro n
  induction n with
  | zero => intro k; rfl
  | succ n ih =>
    intro k
    simp [loopEvents, iterEvents, pollCount, List.countP_append, List.countP_cons]
    have := ih (k + 1)
    simp [pollCount] at this
    simp [this]

end SO101

namespace SO101

/-- C2: whether the loop exits by cancellation or by an exception raised in
the loop body, no exception propagates out of the session (a loop-body
exception is reported instead), the trace decomposes as the capture and
in-loop events followed by exactly the pose-restore send and the two
disconnects, the home snapshot is sent to the follower exactly once, and
that send comes after every in-loop send and before the disconnects. -/
theorem session_restores_home_exactly_once [DecidableEq α] (home : α)
    (acts : Nat → α) (mode : LoopExit) (h : ∀ i, acts i ≠ home) :
    Ev.raised ∉ sessionTrace home acts mode false
    ∧ sessionTrace home acts mode false
        = (Ev.captureHome home :: loopExitEvents acts mode)
            ++ [Ev.sendFollower home, Ev.discFollower, Ev.discLeader]
    ∧ Ev.sendFollower home ∉ (Ev.captureHome home :: loopExitEvents acts mode)
    ∧ (sessionTrace home acts mode false).count (Ev.sendFollower home) = 1
    ∧ (∀ n, mode = LoopExit.getActionRaises n ∨ mode = LoopExit.sendActionRaises n →
        Ev.report ∈ sessionTrace home acts mode false) := by
  have hshape : sessionTrace home acts mode false
      = (Ev.captureHome home :: loopExitEvents acts mode)
          ++ [Ev.sendFollower home, Ev.discFollower, Ev.discLeader] := by
    simp [sessionTrace, teardownEvents]
  have hnot : Ev.sendFollower home ∉ (Ev.captureHome home :: loopExitEvents acts mode) := by
    cases mode with
    | cancelled n =>
      simp [loopExitEvents, sendHome_not_mem_loopEvents home acts h n 0]
    | getActionRaises n =>
      simp [loopExitEvents, sendHome_not_mem_loopEvents home acts h n 0]
    | sendActionRaises n =>
      simp [loopExitEvents, sendHome_not_mem_loopEvents home acts h n 0]
      exact fun hh => h n hh.symm
  refine ⟨?_, hshape, hnot, ?_, ?_⟩
  · cases mode with
    | cancelled n =>
      simp [sessionTrace, loopExitEvents, teardownEvents,
        raised_not_mem_loopEvents acts n 0]
    | getActionRaises n =>
      simp [sessionTrace, loopExitEvents, teardownEvents,
        raised_not_mem_loopEvents acts n 0]
    | sendActionRaises n =>
      simp [sessionTrace, loopExitEvents, teardownEvents,
        raised_not_mem_loopEvents acts n 0]
  · rw [hshape, List.count_append]
    rw [List.count_eq_zero.mpr hnot]
    simp [List.count_cons]
  · intro n hn
    rcases hn with rfl | rfl <;>
      simp [sessionTrace, loopExitEvents, teardownEvents]

/-- Witness for C2: one completed iteration with leader actions distinct
from the home snapshot; the follower receives the home snapshot exactly
once. -/
theorem session_restores_home_exactly_once_witness :
    (sessionTrace (0 : Nat) (fun i => i + 1) (LoopExit.cancelled 1) false).count
        (Ev.sendFollower 0) = 1 :=
  (session_restores_home_exactly_once 0 (fun i => i + 1) (LoopExit.cancelled 1)
      (fun i => Nat.succ_ne_zero i)).2.2.2.1

/-- C9: within one session ending by cancellation after `n` iterations, the
in-loop events pass the strict-alternation checker — every iteration polls
the stop flag exactly once, immediately before its leader read, and each
read action is sent to the follower before the next read — and the stop
flag is polled exactly `n + 1` times (once per iteration plus the final
poll that observes cancellation). -/
theorem session_loop_strictly_alternates [DecidableEq α] (home : α)
    (acts : Nat → α) (n : Nat) :
    sessionTrace home acts (LoopExit.cancelled n) false
        = Ev.captureHome home
            :: ((loopEvents acts 0 n ++ [Ev.poll true])
                ++ [Ev.sendFollower home, Ev.discFollower, Ev.discLeader])
    ∧ strictAlt acts (loopEvents acts 0 n ++ [Ev.poll true]) 0 = true
    ∧ pollCount (loopEvents acts 0 n ++ [Ev.poll true]) = n + 1 := by
  refine ⟨by simp [sessionTrace, loopExitEvents, teardownEvents],
    strictAlt_loopEvents acts n 0, ?_⟩
  have := pollCount_loopEvents acts n 0
  simp [pollCount, List.countP_append] at this ⊢
  simp [this]

/-- C4 counterexample: when the pose-restore send in the finally block
raises, neither the follower's nor the leader's disconnect is called and
the exception propagates out of the session — refuting the claim that a
pose-restore failure still lets both disconnects run. -/
theorem restore_failure_skips_disconnects :
    Ev.discFollower ∉ sessionTrace (0 : Nat) (fun i => i) (LoopExit.cancelled 0) true
    ∧ Ev.discLeader ∉ sessionTrace (0 : Nat) (fun i => i) (LoopExit.cancelled 0) true
    ∧ Ev.raised ∈ sessionTrace (0 : Nat) (fun i => i) (LoopExit.cancelled 0) true := by
  decide

/-- C4 amended: a failure of the pose-restore send aborts the rest of the
teardown: for every session trace in which the pose-restore send raises,
`disconnect()` is called on neither the follower nor the leader, and the
exception propagates out of the session right after the failing send. -/
theorem restore_failure_propagates (home : α) (acts : Nat → α)
    (mode : LoopExit) :
    Ev.discFollower ∉ sessionTrace home acts mode true
    ∧ Ev.discLeader ∉ sessionTrace home acts mode true
    ∧ sessionTrace home acts mode true
        = (Ev.captureHome home :: loopExitEvents acts mode)
            ++ [Ev.sendFollower home, Ev.raised] := by
  refine ⟨?_, ?_, by simp [sessionTrace, teardownEvents]⟩
  · cases mode with
    | cancelled n =>
      simp [sessionTrace, loopExitEvents, teardownEvents,
        discF_not_mem_loopEvents acts n 0]
    | getActionRaises n =>
      simp [sessionTrace, loopExitEvents, teardownEvents,
        discF_not_mem_loopEvents acts n 0]
    | sendActionRaises n =>
      simp [sessionTrace, loopExitEvents, teardownEvents,
        discF_not_mem_loopEvents acts n 0]
  · cases mode with
    | cancelled n =>
      simp [sessionTrace, loopExitEvents, teardownEvents,
        discL_not_mem_loopEvents acts n 0]
    | getActionRaises n =>
      simp [sessionTrace, loopExitEvents, teardownEvents,
        discL_not_mem_loopEvents acts n 0]
    | sendActionRaises n =>
      simp [sessionTrace, loopExitEvents, teardownEvents,
        discL_not_mem_loopEvents acts n 0]

end SO101

namespace SO101

theorem dictInsert_not_mem (d : Dict α) (kv : String × α)
    (h : kv.1 ∉ d.map Prod.fst) : dictInsert d kv = d ++ [kv] := by
  unfold dictInsert
  rw [if_neg]
  intro hc
  obtain ⟨p, hp, hdec⟩ := List.any_eq_true.mp hc
  exact h (List.mem_map.mpr ⟨p, hp, of_decide_eq_true hdec⟩)

theorem dictUpdate_disjoint (d e : Dict α)
    (hd : ∀ k ∈ e.map Prod.fst, k ∉ d.map Prod.fst)
    (he : (e.map Prod.fst).Nodup) :
    dictUpdate d e = d ++ e := by
  induction e generalizing d with
  | nil => simp [dictUpdate]
  | cons kv rest ih =>
    have h1 : kv.1 ∉ d.map Prod.fst := hd kv.1 (by simp)
    have hstep : dictUpdate d (kv :: rest) = dictUpdate (dictInsert d kv) rest := rfl
    rw [hstep, dictInsert_not_mem d kv h1]
    simp only [List.map_cons, List.nodup_cons] at he
    rw [ih (d ++ [kv]) ?_ he.2]
    · simp
    · intro k hk
      simp only [List.map_append, List.mem_append, List.map_cons, List.map_nil,
        List.mem_singleton, not_or]
      refine ⟨hd k (by simp [hk]), ?_⟩
      intro hkk
      exact he.1 (hkk ▸ hk)

theorem foldl_update_bind (arms : List (String × Dict α)) (init : Dict α)
    (h : ((init ++ arms.flatMap (fun a => withPre a.1 a.2)).map Prod.fst).Nodup) :
    arms.foldl (fun d a => dictUpdate d (withPre a.1 a.2)) init
      = init ++ arms.flatMap (fun a => withPre a.1 a.2) := by
  induction arms generalizing init with
  | nil => simp
  | cons a rest ih =>
    simp only [List.foldl_cons, List.flatMap_cons]
    have hr : ((init ++ withPre a.1 a.2) ++ rest.flatMap (fun a => withPre a.1 a.2)).map
        Prod.fst |>.Nodup := by
      simpa [List.append_assoc] using h
    have hX : dictUpdate init (withPre a.1 a.2) = init ++ withPre a.1 a.2 := by
      apply dictUpdate_disjoint
      · intro k hk hkin
        have hnd : (init.map Prod.fst
            ++ ((withPre a.1 a.2).map Prod.fst
                ++ (rest.flatMap (fun a => withPre a.1 a.2)).map Prod.fst)).Nodup := by
          simpa [List.map_append] using h
        have hdisj := (List.nodup_append.mp hnd).2.2
        exact hdisj hkin (by simp [hk])
      · have hnd : ((withPre a.1 a.2).map Prod.fst
            ++ (rest.flatMap (fun a => withPre a.1 a.2)).map Prod.fst).Nodup := by
          have := (List.nodup_append.mp (by
            simpa [List.map_append] using h : (init.map Prod.fst
              ++ ((withPre a.1 a.2).map Prod.fst
                  ++ (rest.flatMap (fun a => withPre a.1 a.2)).map Prod.fst)).Nodup)).2.1
          exact this
        exact (List.nodup_append.mp hnd).1
    rw [hX]
    rw [ih (init ++ withPre a.1 a.2) (by simpa [List.append_assoc] using hr)]
    simp

/-- C7: for arm namespaces and camera keys that do not collide, the
composite follower's get_observation returns exactly the concatenation of
every arm's observation with the arm's prefix attached, in arm-map order,
followed by every camera's frame under its own key — hence its key set is
the union of the prefixed arm keys and the camera keys, with each key bound
to the corresponding member's value. -/
theorem getObservation_prefixed_union (arms : List (String × Dict α))
    (cams : List (String × α))
    (h : (((arms.flatMap (fun a => withPre a.1 a.2)) ++ cams).map Prod.fst).Nodup) :
    getObservation arms cams = (arms.flatMap (fun a => withPre a.1 a.2)) ++ cams
    ∧ (getObservation arms cams).map Prod.fst
        = (arms.flatMap (fun a => a.2.map (fun kv => a.1 ++ "_" ++ kv.1)))
            ++ cams.map Prod.fst := by
  have hnd : ((arms.flatMap (fun a => withPre a.1 a.2)).map Prod.fst
      ++ cams.map Prod.fst).Nodup := by
    simpa [List.map_append] using h
  have harm : arms.foldl (fun d a => dictUpdate d (withPre a.1 a.2)) []
      = arms.flatMap (fun a => withPre a.1 a.2) := by
    have := foldl_update_bind arms []
      (by simpa using (List.nodup_append.mp hnd).1)
    simpa using this
  have hmain : getObservation arms cams = (arms.flatMap (fun a => withPre a.1 a.2)) ++ cams := by
    show cams.foldl (fun d c => dictInsert d c)
        (arms.foldl (fun d a => dictUpdate d (withPre a.1 a.2)) []) = _
    rw [harm]
    have : cams.foldl (fun d c => dictInsert d c) (arms.flatMap (fun a => withPre a.1 a.2))
        = dictUpdate (arms.flatMap (fun a => withPre a.1 a.2)) cams := rfl
    rw [this]
    apply dictUpdate_disjoint
    · intro k hk hkin
      exact (List.nodup_append.mp hnd).2.2 hkin hk
    · exact (List.nodup_append.mp hnd).2.1
  refine ⟨hmain, ?_⟩
  rw [hmain]
  simp only [List.map_append, List.map_flatMap, withPre, List.map_map]
  rfl

/-- Witness for C7 at a concrete composite of two arms and one camera. -/
theorem getObservation_prefixed_union_witness :
    getObservation [("left", [("pos", (1 : Nat))]), ("right", [("pos", 2)])]
        [("cam", 7)]
      = [("left_pos", 1), ("right_pos", 2), ("cam", 7)] :=
  (getObservation_prefixed_union
      [("left", [("pos", (1 : Nat))]), ("right", [("pos", 2)])]
      [("cam", 7)] (by decide)).1.trans (by decide)

end SO101
